import Mathlib

set_option maxRecDepth 4000

/-!
Shallow embedding of the GreenTouch touch-foil driver
(`src/usb_skel/usbskeleton.c`): the calibration / normalization /
blob-extraction pipeline (`normalize`, `skel_poll`), the transfer-completion
callbacks (`skel_read_bulk_callback`, `skel_write_bulk_callback`) and the
pending-error reporting fragments of `skel_read` / `skel_write` /
`skel_flush`.

Machine-integer conventions: the C `unsigned short` buffers are modelled as
`Nat → Nat` with an explicit `% 65536` wherever the C code can wrap; the raw
frame is an `unsigned char` buffer, modelled by reading through `% 256`.
C `int` quantities that can be negative (transfer statuses, error codes,
contact coordinates, the adjacent-store index) are modelled as `Int`.
-/

namespace GreenTouch

/-- `#define AVERAGE_COMPUTE_FRAME 255` -/
def AVERAGE_COMPUTE_FRAME : Nat := 255

/-- `#define SIGMA_COMPUTE_FRAME 255` -/
def SIGMA_COMPUTE_FRAME : Nat := 255

/-- `#define MAX_CONTACTS 10` -/
def MAX_CONTACTS : Nat := 10

/-- `#define SIGMA_THRESHOLD 275` -/
def SIGMA_THRESHOLD : Nat := 275

/-- `#define CALIBRATE_EVERY 7000` -/
def CALIBRATE_EVERY : Nat := 7000

/-- `#define BLOB_LINE_OFFSET 0` -/
def BLOB_LINE_OFFSET : Nat := 0

/-- A 16-bit-cell buffer (`unsigned short *` of 4160 entries in the C code),
modelled as a total function. -/
abbrev Buf := Nat → Nat

/-- Pointwise store `b[t] = v`. -/
def upd (b : Buf) (t v : Nat) : Buf := fun n => if n = t then v else b n

/-- `struct touch_contact` (the `processed` field is declared in the C struct
but never read or written by the driver, so it is omitted). -/
structure TouchContact where
  x : Int
  y : Int
  h : Int
  w : Int
  deriving DecidableEq

/-- Pointwise store into the `touch_contacts` array, modelled as a total
function so that the driver's out-of-bounds slot-10 store is representable. -/
def updC (c : Nat → TouchContact) (t : Nat) (v : TouchContact) :
    Nat → TouchContact := fun n => if n = t then v else c n

/-- `index = j+i*64+64+64*BLOB_LINE_OFFSET; index = index%4096;`
(lines 597-598): the linear buffer index of matrix cell (row `i`, col `j`). -/
def cellIdx (i j : Nat) : Nat := (j + i * 64 + 64 + 64 * BLOB_LINE_OFFSET) % 4096

/-- The destination index `index - 65` of the adjacent-score accumulation
store `score_frame_adjacent[index-(65)] += score;` (line 653), as the C
`int` value. -/
def adjTarget (i j : Nat) : Int := ((cellIdx i j : Nat) : Int) - 65

/-- The nine `(k, l)` offset pairs of the 3x3 neighborhood double loop
`for(k=-2;k<1;k++) for(l=-2;l<1;l++)` (lines 648-649), in iteration order. -/
def klPairs : List (Int × Int) :=
  [(-2, -2), (-2, -1), (-2, 0), (-1, -2), (-1, -1), (-1, 0), (0, -2), (0, -1), (0, 0)]

/-- One guarded iteration of the 3x3 neighborhood accumulation loop
(lines 650-654): under `l+j>0 && k+i>0`, add `score_frame[adj_index]` into
`score_frame_adjacent[index-65]`. The C store is unguarded pointer
arithmetic; when the computed destination `index-65` falls outside the
4160-entry buffer (an out-of-bounds write in C, see claim C9) the model
leaves the buffer unchanged, since the C behaviour is undefined there and
no in-buffer cell is affected. -/
def adjStep (score : Buf) (i j : Nat) (b : Buf) (kl : Int × Int) : Buf :=
  if kl.2 + (j : Int) > 0 ∧ kl.1 + (i : Int) > 0 then
    (if 0 ≤ adjTarget i j ∧ adjTarget i j < 4160 then
      upd b (adjTarget i j).toNat
        ((b (adjTarget i j).toNat +
          score ((kl.2 + (j : Int)) + (kl.1 + (i : Int)) * 64 + 64).toNat) % 65536)
    else b)
  else b

/-- The 3x3 neighborhood accumulation double loop (lines 648-656). -/
def adjAccum (score : Buf) (adjB : Buf) (i j : Nat) : Buf :=
  klPairs.foldl (adjStep score i j) adjB

/-- `j >= contact->x -2 && j < contact->x + contact->w +3 &&
i >= contact->y -2 && i < contact->y + contact->h +3` (lines 680-681):
membership of cell (row `i`, col `j`) in the dilated bounding box. -/
def dilatedContains (c : TouchContact) (i j : Nat) : Bool :=
  decide ((j : Int) ≥ c.x - 2 ∧ (j : Int) < c.x + c.w + 3 ∧
          (i : Int) ≥ c.y - 2 ∧ (i : Int) < c.y + c.h + 3)

/-- The search loop `for(m=0;m<contact_index;m++)` (lines 678-685): first
existing contact whose dilated bounding box contains the triggered cell. -/
def findMatch (contacts : Nat → TouchContact) (contactIndex : Nat)
    (i j : Nat) : Option Nat :=
  (List.range contactIndex).find? (fun m => dilatedContains (contacts m) i j)

/-- Growing an existing contact to cover the triggered cell (lines 688-692). -/
def growContact (c : TouchContact) (i j : Nat) : TouchContact :=
  let c1 := if (j : Int) - c.x + 1 > c.w then { c with w := (j : Int) - c.x + 1 } else c
  if (i : Int) - c1.y + 1 > c1.h then { c1 with h := (i : Int) - c1.y + 1 } else c1

/-- The per-cell contact bookkeeping (lines 674-706): under
`contact_index < MAX_CONTACTS`, a triggered cell either grows the first
matching contact, or does `contact_index++` and then writes the new
single-cell record at `touch_contacts[contact_index]` — i.e. at the slot
*after* the increment. Returns the updated contact array and contact count. -/
def contactStep (cellTriggered : Bool) (i j : Nat)
    (contacts : Nat → TouchContact) (contactIndex : Nat) :
    (Nat → TouchContact) × Nat :=
  if contactIndex < MAX_CONTACTS then
    if cellTriggered then
      match findMatch contacts contactIndex i j with
      | some m => (updC contacts m (growContact (contacts m) i j), contactIndex)
      | none =>
        let ci := contactIndex + 1
        (updC contacts ci { x := (j : Int), y := (i : Int), h := 1, w := 1 }, ci)
    else (contacts, contactIndex)
  else (contacts, contactIndex)

/-- The five statistics buffers and the contact array owned by
`struct usb_skel`. -/
structure Buffers where
  score : Buf
  adj : Buf
  lastAdj : Buf
  average : Buf
  sigma : Buf
  contacts : Nat → TouchContact

/-- State threaded through the 64x64 cell loop of `normalize`: the buffers
plus the local `contact_index` (initialised to 0 at every frame). -/
structure FoldState where
  bufs : Buffers
  contactIndex : Nat

/-- One steady-state cell iteration (lines 633-708), returning the updated
state together with the smoothed score value that was delivered to the
threshold test (`score = score_frame_adjacent[index]`, line 661).
Faithful order: zero own adjacent slot; write own score; run the 3x3
accumulation into `index-65`; average own adjacent slot with the
last-frame buffer; threshold; contact bookkeeping; whole-buffer
`memcpy(score_last_frame_adjacent, score_frame_adjacent, 4160*2)`. -/
def steadyCellFull (raw : Buf) (s : FoldState) (i j : Nat) : FoldState × Nat :=
  let index := cellIdx i j
  let current_value := raw index % 256
  let sigma := s.bufs.sigma index
  let adj0 := upd s.bufs.adj index 0
  let difference := if current_value < s.bufs.average index
                    then s.bufs.average index - current_value
                    else current_value - s.bufs.average index
  let score1 := upd s.bufs.score index (difference / sigma)
  let adj1 := adjAccum score1 adj0 i j
  let smoothed := (adj1 index + s.bufs.lastAdj index) / 2
  let adj2 := upd adj1 index smoothed
  let scoreV := adj2 index
  let cellTriggered := if scoreV ≤ SIGMA_THRESHOLD then false else true
  let cres := contactStep cellTriggered i j s.bufs.contacts s.contactIndex
  (⟨⟨score1, adj2, adj2, s.bufs.average, s.bufs.sigma, cres.1⟩, cres.2⟩, scoreV)

/-- The steady-state cell iteration, state part. -/
def steadyCell (raw : Buf) (s : FoldState) (i j : Nat) : FoldState :=
  (steadyCellFull raw s i j).1

/-- The smoothed adjacent score delivered to the threshold test for cell
(row `i`, col `j`) when the loop reaches that cell in state `s`. -/
def deliveredScore (raw : Buf) (s : FoldState) (i j : Nat) : Nat :=
  (steadyCellFull raw s i j).2

/-- One iteration of the cell double loop of `normalize` (lines 595-710):
the phase dispatch `if`/`else if` chain over
(`average_computed`, `sigma_normalized`, `frame_index`). -/
def normalizeCell (raw : Buf) (frameIndex : Nat)
    (sigmaNormalized averageComputed : Bool)
    (s : FoldState) (c : Nat × Nat) : FoldState :=
  let i := c.1
  let j := c.2
  let index := cellIdx i j
  if averageComputed = false ∧ frameIndex < AVERAGE_COMPUTE_FRAME then
    { s with bufs.average := (upd s.bufs.average index
        (if frameIndex = 0 then raw index % 256
         else (s.bufs.average index + raw index % 256) % 65536)) }
  else if averageComputed = false ∧ frameIndex = AVERAGE_COMPUTE_FRAME then
    { s with bufs.average := (upd s.bufs.average index
        (s.bufs.average index / AVERAGE_COMPUTE_FRAME)) }
  else if sigmaNormalized = false ∧
      frameIndex < SIGMA_COMPUTE_FRAME + AVERAGE_COMPUTE_FRAME then
    let current_value := raw index % 256
    let difference := if current_value < s.bufs.average index
                      then s.bufs.average index - current_value
                      else current_value - s.bufs.average index
    { s with bufs.sigma := (upd s.bufs.sigma index
        (if frameIndex = AVERAGE_COMPUTE_FRAME + 1 then difference
         else (s.bufs.sigma index + difference) % 65536)) }
  else if sigmaNormalized = false ∧
      frameIndex = SIGMA_COMPUTE_FRAME + AVERAGE_COMPUTE_FRAME then
    { s with bufs.sigma := (upd s.bufs.sigma index
        (if s.bufs.sigma index / SIGMA_COMPUTE_FRAME < 1 then 1
         else s.bufs.sigma index / SIGMA_COMPUTE_FRAME)) }
  else if sigmaNormalized = true ∧ averageComputed = true then
    steadyCell raw s i j
  else s

/-- Row-major enumeration of the cell double loop
`for(i=0;i<64;i++) for(j=0;j<64;j++)`: linear position `n` is cell
(row `n / 64`, col `n % 64`). -/
def cellList : List (Nat × Nat) := (List.range 4096).map fun n => (n / 64, n % 64)

/-- The buffer index of a cell-pair. -/
def cellOf (c : Nat × Nat) : Nat := cellIdx c.1 c.2

/-- One whole call of `normalize` (lines 570-726): fold the per-cell step
over all 4096 cells, with the local `contact_index` starting at 0. -/
def normalizeFrame (raw : Buf) (frameIndex : Nat)
    (sigmaNormalized averageComputed : Bool) (bufs : Buffers) : FoldState :=
  cellList.foldl (normalizeCell raw frameIndex sigmaNormalized averageComputed)
    ⟨bufs, 0⟩

/-- The contact list printed at the end of `normalize` (lines 716-723):
slots `0 .. contact_index-1`, and only when both calibration flags are set. -/
def reportedContacts (sigmaNormalized averageComputed : Bool)
    (fs : FoldState) : List TouchContact :=
  if sigmaNormalized = true ∧ averageComputed = true then
    (List.range fs.contactIndex).map fs.bufs.contacts
  else []

/-- The per-device state read and written by `skel_poll`. -/
structure DevState where
  bufs : Buffers
  frameIndex : Nat
  sigmaNormalized : Bool
  averageComputed : Bool

/-- Result of one poll tick: the new device state, whether the
frame-complete marker (`input_mt_sync_frame` / `input_sync`) was emitted,
and the contact list reported for the frame. -/
structure PollResult where
  dev : DevState
  frameMarker : Bool
  reported : List TouchContact

/-- One tick of `skel_poll` (lines 729-785). `fetchResult` is the return
value of the synchronous `usb_bulk_msg` fetch; a negative status returns
early (lines 742-745) before `normalize`, the flag updates, the
recalibration check, the input-sink sync and the `frame_index` increment. -/
def pollTick (raw : Buf) (fetchResult : Int) (d : DevState) : PollResult :=
  if fetchResult < 0 then ⟨d, false, []⟩
  else
    let fs := normalizeFrame raw d.frameIndex d.sigmaNormalized d.averageComputed d.bufs
    let reported := reportedContacts d.sigmaNormalized d.averageComputed fs
    let sigN := if d.sigmaNormalized = false ∧
        d.frameIndex = SIGMA_COMPUTE_FRAME + AVERAGE_COMPUTE_FRAME
      then true else d.sigmaNormalized
    let avgC := if d.averageComputed = false ∧ d.frameIndex = AVERAGE_COMPUTE_FRAME
      then true else d.averageComputed
    let recal := CALIBRATE_EVERY < d.frameIndex
    let fi2 := if recal then 0 else d.frameIndex
    let avgC2 := if recal then false else avgC
    let sigN2 := if recal then false else sigN
    ⟨⟨fs.bufs, fi2 + 1, sigN2, avgC2⟩, true, reported⟩

/-- The all-zero contact record produced by `kzalloc`. -/
def zeroContact : TouchContact := ⟨0, 0, 0, 0⟩

/-- Freshly probed buffers: `kzalloc` zero-fills everything (lines 857-862). -/
def initBuffers : Buffers :=
  ⟨fun _ => 0, fun _ => 0, fun _ => 0, fun _ => 0, fun _ => 0, fun _ => zeroContact⟩

/-- Device state right after `skel_probe`: `frame_index = 0`, both
calibration flags false. -/
def initDev : DevState := ⟨initBuffers, 0, false, false⟩

/-- Run `n` successful poll ticks from power-on, frame `t` carrying the raw
bytes `rawSeq t`. -/
def runTicks (rawSeq : Nat → Buf) : Nat → DevState
  | 0 => initDev
  | n + 1 => (pollTick (rawSeq n) 0 (runTicks rawSeq n)).dev

/-- The contact list reported on tick `n` (0-based) of a successful run. -/
def reportedAt (rawSeq : Nat → Buf) (n : Nat) : List TouchContact :=
  (pollTick (rawSeq n) 0 (runTicks rawSeq n)).reported

/-! ### Transfer-completion callbacks and pending-error reporting -/

/-- The session state touched by `skel_read_bulk_callback`. -/
structure CallbackState where
  errors : Int
  bulk_in_filled : Nat
  ongoing_read : Bool
  deriving DecidableEq

/-- Result of a completion callback: the new session state and whether the
`dev_err` log line was emitted. -/
structure CallbackResult where
  state : CallbackState
  logged : Bool
  deriving DecidableEq

/-- `urb->status == -ENOENT || -ECONNRESET || -ESHUTDOWN`: the statuses the
callbacks treat as deliberate unlink/cancel (ENOENT=2, ECONNRESET=104,
ESHUTDOWN=108). -/
def isCancelStatus (status : Int) : Bool :=
  status = -2 || status = -104 || status = -108

/-- `skel_read_bulk_callback` (lines 204-228): any nonzero status is stored
into `dev->errors` (the cancel statuses merely skip the `dev_err` log);
a zero status records `bulk_in_filled`; `ongoing_read` is always cleared. -/
def skelReadBulkCallback (status : Int) (actual_length : Nat)
    (s : CallbackState) : CallbackResult :=
  if status ≠ 0 then
    ⟨{ s with errors := status, ongoing_read := false }, !isCancelStatus status⟩
  else
    ⟨{ s with bulk_in_filled := actual_length, ongoing_read := false }, false⟩

/-- `skel_write_bulk_callback` (lines 379-405), error bookkeeping part: any
nonzero status is stored into `dev->errors`, the cancel statuses merely
skip the log. Returns the new `errors` value and whether the log fired. -/
def skelWriteBulkCallback (status : Int) (errors : Int) : Int × Bool :=
  if status ≠ 0 then (status, !isCancelStatus status) else (errors, false)

/-- The pending-error fragment of `skel_read` (lines 314-323):
`rv = dev->errors; if (rv < 0) { dev->errors = 0; rv = (rv == -EPIPE) ? rv :
-EIO; goto exit; }`. Returns `some mappedError` when the call exits with the
error, `none` when it proceeds, paired with the new `dev->errors`
(EPIPE=32, EIO=5). -/
def readErrorStep (errors : Int) : Option Int × Int :=
  if errors < 0 then (some (if errors = -32 then -32 else -5), 0)
  else (none, errors)

/-- The identical pending-error fragment of `skel_write` (lines 440-450). -/
def writeErrorStep (errors : Int) : Option Int × Int :=
  if errors < 0 then (some (if errors = -32 then -32 else -5), 0)
  else (none, errors)

/-- The pending-error fragment of `skel_flush` (lines 193-197):
`res = dev->errors ? (dev->errors == -EPIPE ? -EPIPE : -EIO) : 0;
dev->errors = 0;`. Returns the flush result and the new `dev->errors`. -/
def flushErrorStep (errors : Int) : Int × Int :=
  (if errors ≠ 0 then (if errors = -32 then -32 else -5) else 0, 0)

/-! ### Concrete inputs used by counterexamples and witnesses -/

/-- The end-to-end scenario of claim C1: 510 all-zero frames, then one frame
whose only nonzero byte is 255 at cell (10,10) (buffer index 714). -/
def c1RawSeq : Nat → Buf :=
  fun t => if t = 510 then (fun n => if n = 714 then 255 else 0) else fun _ => 0

/-- Raw frame for the C4 counterexample: one spike of 200 at cell (10,10). -/
def c4Raw : Buf := fun n => if n = 714 then 200 else 0

/-- Steady-state fold state for the C4 counterexample: zero baseline, sigma
floor 1 everywhere, all score buffers zero. -/
def c4State : FoldState :=
  ⟨⟨fun _ => 0, fun _ => 0, fun _ => 0, fun _ => 0, fun _ => 1, fun _ => zeroContact⟩, 0⟩

/-- Contact array for the C2 counterexample: nine far-away contacts, none of
whose dilated boxes contain cell (1,1). -/
def c2Contacts : Nat → TouchContact := fun _ => ⟨20, 20, 1, 1⟩

/-- The claim C4 formula, modelled from the spec's words ("the current
frame's adjacent neighborhood sum for that cell" is averaged with "the
previous frame's adjacent score for that cell"): the guarded 3x3 causal
neighborhood sum of the current frame's scores for cell (i,j), averaged with
the previous-frame adjacent buffer at the cell's own index. For comparison
with `deliveredScore`. -/
def specSmoothedScore (raw : Buf) (s : FoldState) (i j : Nat) : Nat :=
  let index := cellIdx i j
  let current_value := raw index % 256
  let difference := if current_value < s.bufs.average index
                    then s.bufs.average index - current_value
                    else current_value - s.bufs.average index
  let score1 := upd s.bufs.score index (difference / s.bufs.sigma index)
  let adjSum := klPairs.foldl (fun a kl =>
    if kl.2 + (j : Int) > 0 ∧ kl.1 + (i : Int) > 0 then
      (a + score1 ((kl.2 + (j : Int)) + (kl.1 + (i : Int)) * 64 + 64).toNat) % 65536
    else a) 0
  (adjSum + s.bufs.lastAdj index) / 2

/-! ### Proof-side helper definitions -/

/-- Fold a family of single-index stores over a cell list: each cell `c`
overwrites position `f c` with `g c` applied to the old value there. The
averaging, average-finalize, sigma-accumulation and sigma-finalize phases of
`normalize` all have this shape. -/
def updFold (f : Nat × Nat → Nat) (g : Nat × Nat → Nat → Nat)
    (L : List (Nat × Nat)) (b : Buf) : Buf :=
  L.foldl (fun b c => upd b (f c) (g c (b (f c)))) b

/-- Per-cell value function of the averaging phase (lines 599-604). -/
def avgVal (raw : Buf) (frameIndex : Nat) : Nat × Nat → Nat → Nat :=
  fun c old => if frameIndex = 0 then raw (cellOf c) % 256
               else (old + raw (cellOf c) % 256) % 65536

/-- Per-cell value function of the average-finalize phase (line 610). -/
def avgFinVal : Nat × Nat → Nat → Nat :=
  fun _ old => old / AVERAGE_COMPUTE_FRAME

/-- Per-cell value function of the sigma-finalize phase (lines 629-631). -/
def sigmaFinVal : Nat × Nat → Nat → Nat :=
  fun _ old => if old / SIGMA_COMPUTE_FRAME < 1 then 1
               else old / SIGMA_COMPUTE_FRAME

/-- Exact (unwrapped) sum of the first `n` raw byte samples at buffer
position `idx`. -/
def rawSum (rawSeq : Nat → Buf) (n idx : Nat) : Nat :=
  ∑ t ∈ Finset.range n, rawSeq t idx % 256

/-! ### Basic buffer lemmas -/

theorem upd_same (b : Buf) (t v : Nat) : upd b t v t = v := by
  simp [upd]

theorem upd_ne (b : Buf) (t v n : Nat) (h : n ≠ t) : upd b t v n = b n := by
  simp [upd, h]

theorem cellIdx_linear (n : Nat) : cellIdx (n / 64) (n % 64) = (n + 64) % 4096 := by
  unfold cellIdx BLOB_LINE_OFFSET
  congr 1
  omega

theorem cellList_map_eq :
    cellList.map cellOf = (List.range 4096).map (fun n => (n + 64) % 4096) := by
  unfold cellList
  rw [List.map_map]
  apply List.map_congr_left
  intro n _
  simpa [Function.comp, cellOf] using cellIdx_linear n

theorem cellList_idx_nodup : (cellList.map cellOf).Nodup := by
  rw [cellList_map_eq]
  refine List.Nodup.map_on ?_ (List.nodup_range 4096)
  intro x hx y hy hxy
  rw [List.mem_range] at hx hy
  omega

theorem mem_cellList (i j : Nat) (hi : i < 64) (hj : j < 64) : (i, j) ∈ cellList := by
  unfold cellList
  refine List.mem_map.mpr ⟨i * 64 + j, List.mem_range.mpr (by omega), ?_⟩
  simp only [Prod.mk.injEq]
  omega

theorem updFold_notmem (f : Nat × Nat → Nat) (g : Nat × Nat → Nat → Nat)
    (L : List (Nat × Nat)) (b : Buf) (n : Nat) (hn : n ∉ L.map f) :
    updFold f g L b n = b n := by
  induction L generalizing b with
  | nil => rfl
  | cons c L ih =>
    rw [List.map_cons, List.mem_cons] at hn
    push_neg at hn
    show updFold f g L (upd b (f c) (g c (b (f c)))) n = b n
    rw [ih _ hn.2, upd_ne _ _ _ _ hn.1]

theorem updFold_mem (f : Nat × Nat → Nat) (g : Nat × Nat → Nat → Nat)
    (L : List (Nat × Nat)) (hnd : (L.map f).Nodup) (b : Buf)
    (c : Nat × Nat) (hc : c ∈ L) :
    updFold f g L b (f c) = g c (b (f c)) := by
  induction L generalizing b with
  | nil => cases hc
  | cons d L ih =>
    rw [List.map_cons, List.nodup_cons] at hnd
    rcases List.mem_cons.mp hc with h | h
    · subst h
      show updFold f g L (upd b (f c) (g c (b (f c)))) (f c) = g c (b (f c))
      rw [updFold_notmem _ _ _ _ _ hnd.1, upd_same]
    · have hne : f c ≠ f d := by
        intro he
        exact hnd.1 (he ▸ List.mem_map_of_mem f h)
      show updFold f g L (upd b (f d) (g d (b (f d)))) (f c) = g c (b (f c))
      rw [ih hnd.2 _ h, upd_ne _ _ _ _ hne]

/-! ### Fold decomposition for the single-buffer calibration phases -/

theorem foldl_avgOnly (step : FoldState → Nat × Nat → FoldState)
    (astep : Buf → Nat × Nat → Buf)
    (hstep : ∀ s c, step s c =
      ⟨⟨s.bufs.score, s.bufs.adj, s.bufs.lastAdj, astep s.bufs.average c,
        s.bufs.sigma, s.bufs.contacts⟩, s.contactIndex⟩)
    (L : List (Nat × Nat)) (s : FoldState) :
    L.foldl step s =
      ⟨⟨s.bufs.score, s.bufs.adj, s.bufs.lastAdj, L.foldl astep s.bufs.average,
        s.bufs.sigma, s.bufs.contacts⟩, s.contactIndex⟩ := by
  induction L generalizing s with
  | nil => rfl
  | cons c L ih =>
    show L.foldl step (step s c) = _
    rw [hstep, ih]
    rfl

theorem foldl_sigmaOnly (step : FoldState → Nat × Nat → FoldState)
    (sstep : Buf → Nat × Nat → Buf)
    (hstep : ∀ s c, step s c =
      ⟨⟨s.bufs.score, s.bufs.adj, s.bufs.lastAdj, s.bufs.average,
        sstep s.bufs.sigma c, s.bufs.contacts⟩, s.contactIndex⟩)
    (L : List (Nat × Nat)) (s : FoldState) :
    L.foldl step s =
      ⟨⟨s.bufs.score, s.bufs.adj, s.bufs.lastAdj, s.bufs.average,
        L.foldl sstep s.bufs.sigma, s.bufs.contacts⟩, s.contactIndex⟩ := by
  induction L generalizing s with
  | nil => rfl
  | cons c L ih =>
    show L.foldl step (step s c) = _
    rw [hstep, ih]
    rfl

theorem foldl_pres_sigma (step : FoldState → Nat × Nat → FoldState)
    (h : ∀ s c, (step s c).bufs.sigma = s.bufs.sigma)
    (L : List (Nat × Nat)) (s : FoldState) :
    (L.foldl step s).bufs.sigma = s.bufs.sigma := by
  induction L generalizing s with
  | nil => rfl
  | cons c L ih =>
    show (L.foldl step (step s c)).bufs.sigma = _
    rw [ih, h]

/-! ### Phase lemmas for `normalize` -/

theorem normalizeCell_avg (raw : Buf) (fi : Nat) (sN : Bool)
    (hfi : fi < AVERAGE_COMPUTE_FRAME) (s : FoldState) (c : Nat × Nat) :
    normalizeCell raw fi sN false s c =
      ⟨⟨s.bufs.score, s.bufs.adj, s.bufs.lastAdj,
        upd s.bufs.average (cellOf c) (avgVal raw fi c (s.bufs.average (cellOf c))),
        s.bufs.sigma, s.bufs.contacts⟩, s.contactIndex⟩ := by
  simp [normalizeCell, hfi, avgVal, cellOf]

theorem normalizeCell_avgFin (raw : Buf) (sN : Bool) (s : FoldState) (c : Nat × Nat) :
    normalizeCell raw AVERAGE_COMPUTE_FRAME sN false s c =
      ⟨⟨s.bufs.score, s.bufs.adj, s.bufs.lastAdj,
        upd s.bufs.average (cellOf c)
          (avgFinVal c (s.bufs.average (cellOf c))),
        s.bufs.sigma, s.bufs.contacts⟩, s.contactIndex⟩ := by
  simp [normalizeCell, AVERAGE_COMPUTE_FRAME, avgFinVal, cellOf]

theorem normalizeCell_sigmaFin (raw : Buf) (aC : Bool) (s : FoldState) (c : Nat × Nat) :
    normalizeCell raw (SIGMA_COMPUTE_FRAME + AVERAGE_COMPUTE_FRAME) false aC s c =
      ⟨⟨s.bufs.score, s.bufs.adj, s.bufs.lastAdj, s.bufs.average,
        upd s.bufs.sigma (cellOf c)
          (sigmaFinVal c (s.bufs.sigma (cellOf c))),
        s.bufs.contacts⟩, s.contactIndex⟩ := by
  simp [normalizeCell, SIGMA_COMPUTE_FRAME, AVERAGE_COMPUTE_FRAME, sigmaFinVal, cellOf]

theorem steadyCell_sigma (raw : Buf) (s : FoldState) (i j : Nat) :
    (steadyCell raw s i j).bufs.sigma = s.bufs.sigma := rfl

theorem normalizeCell_steady_sigma (raw : Buf) (fi : Nat) (s : FoldState) (c : Nat × Nat) :
    (normalizeCell raw fi true true s c).bufs.sigma = s.bufs.sigma := by
  simp [normalizeCell, steadyCell_sigma]

theorem normalizeFrame_avg (raw : Buf) (fi : Nat) (sN : Bool) (bufs : Buffers)
    (hfi : fi < AVERAGE_COMPUTE_FRAME) :
    normalizeFrame raw fi sN false bufs =
      ⟨⟨bufs.score, bufs.adj, bufs.lastAdj,
        updFold cellOf (avgVal raw fi) cellList bufs.average,
        bufs.sigma, bufs.contacts⟩, 0⟩ := by
  unfold normalizeFrame updFold
  exact foldl_avgOnly _ _ (fun s c => normalizeCell_avg raw fi sN hfi s c) cellList ⟨bufs, 0⟩

theorem normalizeFrame_avgFin (raw : Buf) (sN : Bool) (bufs : Buffers) :
    normalizeFrame raw AVERAGE_COMPUTE_FRAME sN false bufs =
      ⟨⟨bufs.score, bufs.adj, bufs.lastAdj,
        updFold cellOf avgFinVal cellList bufs.average,
        bufs.sigma, bufs.contacts⟩, 0⟩ := by
  unfold normalizeFrame updFold
  exact foldl_avgOnly _ _ (fun s c => normalizeCell_avgFin raw sN s c) cellList ⟨bufs, 0⟩

theorem normalizeFrame_sigmaFin (raw : Buf) (aC : Bool) (bufs : Buffers) :
    normalizeFrame raw (SIGMA_COMPUTE_FRAME + AVERAGE_COMPUTE_FRAME) false aC bufs =
      ⟨⟨bufs.score, bufs.adj, bufs.lastAdj, bufs.average,
        updFold cellOf sigmaFinVal cellList bufs.sigma,
        bufs.contacts⟩, 0⟩ := by
  unfold normalizeFrame updFold
  exact foldl_sigmaOnly _ _ (fun s c => normalizeCell_sigmaFin raw aC s c) cellList ⟨bufs, 0⟩

theorem normalizeFrame_steady_sigma (raw : Buf) (fi : Nat) (bufs : Buffers) (n : Nat) :
    (normalizeFrame raw fi true true bufs).bufs.sigma n = bufs.sigma n := by
  unfold normalizeFrame
  rw [foldl_pres_sigma _ (fun s c => normalizeCell_steady_sigma raw fi s c) cellList ⟨bufs, 0⟩]

theorem cellOf_pair (i j : Nat) : cellOf (i, j) = cellIdx i j := rfl

theorem normalizeFrame_avg_fun (raw : Buf) (fi : Nat) (sN : Bool) (bufs : Buffers)
    (hfi : fi < AVERAGE_COMPUTE_FRAME) :
    (normalizeFrame raw fi sN false bufs).bufs.average =
      updFold cellOf (avgVal raw fi) cellList bufs.average := by
  rw [normalizeFrame_avg raw fi sN bufs hfi]

theorem normalizeFrame_avgFin_fun (raw : Buf) (sN : Bool) (bufs : Buffers) :
    (normalizeFrame raw AVERAGE_COMPUTE_FRAME sN false bufs).bufs.average =
      updFold cellOf avgFinVal cellList bufs.average := by
  rw [normalizeFrame_avgFin raw sN bufs]

theorem normalizeFrame_sigmaFin_fun (raw : Buf) (aC : Bool) (bufs : Buffers) :
    (normalizeFrame raw (SIGMA_COMPUTE_FRAME + AVERAGE_COMPUTE_FRAME) false aC bufs).bufs.sigma =
      updFold cellOf sigmaFinVal cellList bufs.sigma := by
  rw [normalizeFrame_sigmaFin raw aC bufs]

theorem normalizeFrame_avg_at (raw : Buf) (fi : Nat) (sN : Bool) (bufs : Buffers)
    (i j : Nat) (hfi : fi < AVERAGE_COMPUTE_FRAME) (hi : i < 64) (hj : j < 64) :
    (normalizeFrame raw fi sN false bufs).bufs.average (cellIdx i j) =
      (if fi = 0 then raw (cellIdx i j) % 256
       else (bufs.average (cellIdx i j) + raw (cellIdx i j) % 256) % 65536) := by
  rw [normalizeFrame_avg_fun raw fi sN bufs hfi]
  have h := updFold_mem cellOf (avgVal raw fi) cellList cellList_idx_nodup bufs.average (i, j)
    (mem_cellList i j hi hj)
  rw [cellOf_pair] at h
  rw [h]
  rfl

theorem normalizeFrame_avgFin_at (raw : Buf) (sN : Bool) (bufs : Buffers)
    (i j : Nat) (hi : i < 64) (hj : j < 64) :
    (normalizeFrame raw AVERAGE_COMPUTE_FRAME sN false bufs).bufs.average (cellIdx i j) =
      bufs.average (cellIdx i j) / AVERAGE_COMPUTE_FRAME := by
  rw [normalizeFrame_avgFin_fun raw sN bufs]
  have h := updFold_mem cellOf avgFinVal cellList cellList_idx_nodup bufs.average (i, j)
    (mem_cellList i j hi hj)
  rw [cellOf_pair] at h
  rw [h]
  rfl

theorem normalizeFrame_sigmaFin_at (raw : Buf) (aC : Bool) (bufs : Buffers)
    (i j : Nat) (hi : i < 64) (hj : j < 64) :
    (normalizeFrame raw (SIGMA_COMPUTE_FRAME + AVERAGE_COMPUTE_FRAME) false aC bufs).bufs.sigma
        (cellIdx i j) =
      (if bufs.sigma (cellIdx i j) / SIGMA_COMPUTE_FRAME < 1 then 1
       else bufs.sigma (cellIdx i j) / SIGMA_COMPUTE_FRAME) := by
  rw [normalizeFrame_sigmaFin_fun raw aC bufs]
  have h := updFold_mem cellOf sigmaFinVal cellList cellList_idx_nodup bufs.sigma (i, j)
    (mem_cellList i j hi hj)
  rw [cellOf_pair] at h
  rw [h]
  rfl

/-! ### `skel_poll` tick lemmas -/

theorem pollTick_dev_eq (raw : Buf) (r : Int) (d : DevState) (hr : ¬ r < 0) :
    (pollTick raw r d).dev =
      ⟨(normalizeFrame raw d.frameIndex d.sigmaNormalized d.averageComputed d.bufs).bufs,
       (if CALIBRATE_EVERY < d.frameIndex then 0 else d.frameIndex) + 1,
       (if CALIBRATE_EVERY < d.frameIndex then false else
         (if d.sigmaNormalized = false ∧
             d.frameIndex = SIGMA_COMPUTE_FRAME + AVERAGE_COMPUTE_FRAME
          then true else d.sigmaNormalized)),
       (if CALIBRATE_EVERY < d.frameIndex then false else
         (if d.averageComputed = false ∧ d.frameIndex = AVERAGE_COMPUTE_FRAME
          then true else d.averageComputed))⟩ := by
  unfold pollTick
  rw [if_neg hr]

theorem pollTick_reported_eq (raw : Buf) (r : Int) (d : DevState) (hr : ¬ r < 0) :
    (pollTick raw r d).reported =
      reportedContacts d.sigmaNormalized d.averageComputed
        (normalizeFrame raw d.frameIndex d.sigmaNormalized d.averageComputed d.bufs) := by
  unfold pollTick
  rw [if_neg hr]

/-! ### Invariants of the poll loop from power-on -/

theorem runTicks_pre_steady (rawSeq : Nat → Buf) (n : Nat)
    (hn : n ≤ SIGMA_COMPUTE_FRAME + AVERAGE_COMPUTE_FRAME) :
    (runTicks rawSeq n).frameIndex = n ∧
    (runTicks rawSeq n).sigmaNormalized = false := by
  induction n with
  | zero => exact ⟨rfl, rfl⟩
  | succ n ih =>
    have hn2 : n ≤ SIGMA_COMPUTE_FRAME + AVERAGE_COMPUTE_FRAME := Nat.le_of_succ_le hn
    obtain ⟨h1, h2⟩ := ih hn2
    have hlt : n < SIGMA_COMPUTE_FRAME + AVERAGE_COMPUTE_FRAME := hn
    show (pollTick (rawSeq n) 0 (runTicks rawSeq n)).dev.frameIndex = n + 1 ∧
      (pollTick (rawSeq n) 0 (runTicks rawSeq n)).dev.sigmaNormalized = false
    rw [pollTick_dev_eq _ _ _ (by norm_num)]
    have hcal : ¬ CALIBRATE_EVERY < n := by
      simp only [SIGMA_COMPUTE_FRAME, AVERAGE_COMPUTE_FRAME] at hlt
      simp only [CALIBRATE_EVERY]
      omega
    have hne : n ≠ SIGMA_COMPUTE_FRAME + AVERAGE_COMPUTE_FRAME := Nat.ne_of_lt hlt
    constructor
    · simp [h1, hcal]
    · simp [h1, h2, hcal, hne]

theorem rawSum_le (rawSeq : Nat → Buf) (n idx : Nat) :
    rawSum rawSeq n idx ≤ n * 255 := by
  unfold rawSum
  calc ∑ t ∈ Finset.range n, rawSeq t idx % 256
      ≤ ∑ _t ∈ Finset.range n, 255 := by
        refine Finset.sum_le_sum ?_
        intro t _
        have := Nat.mod_lt (rawSeq t idx) (show 0 < 256 by norm_num)
        omega
    _ = n * 255 := by
        simp [Finset.sum_const, Finset.card_range, Nat.smul_one_eq_cast]

theorem runTicks_avg_inv (rawSeq : Nat → Buf) (n : Nat)
    (hn : n ≤ AVERAGE_COMPUTE_FRAME) :
    (runTicks rawSeq n).frameIndex = n ∧
    (runTicks rawSeq n).averageComputed = false ∧
    (runTicks rawSeq n).sigmaNormalized = false ∧
    ∀ i j, i < 64 → j < 64 →
      (runTicks rawSeq n).bufs.average (cellIdx i j) = rawSum rawSeq n (cellIdx i j) := by
  induction n with
  | zero =>
    refine ⟨rfl, rfl, rfl, ?_⟩
    intro i j _ _
    simp [runTicks, initDev, initBuffers, rawSum]
  | succ n ih =>
    have hn2 : n ≤ AVERAGE_COMPUTE_FRAME := Nat.le_of_succ_le hn
    obtain ⟨h1, h2, h3, h4⟩ := ih hn2
    have hlt : n < AVERAGE_COMPUTE_FRAME := hn
    have hcal : ¬ CALIBRATE_EVERY < n := by
      simp only [AVERAGE_COMPUTE_FRAME] at hlt
      simp only [CALIBRATE_EVERY]
      omega
    have hne : n ≠ AVERAGE_COMPUTE_FRAME := Nat.ne_of_lt hlt
    have hneS : n ≠ SIGMA_COMPUTE_FRAME + AVERAGE_COMPUTE_FRAME := by
      simp only [AVERAGE_COMPUTE_FRAME] at hlt
      simp only [SIGMA_COMPUTE_FRAME, AVERAGE_COMPUTE_FRAME]
      omega
    have hdev : runTicks rawSeq (n + 1) =
        ⟨(normalizeFrame (rawSeq n) n false false (runTicks rawSeq n).bufs).bufs,
          n + 1, false, false⟩ := by
      show (pollTick (rawSeq n) 0 (runTicks rawSeq n)).dev = _
      rw [pollTick_dev_eq _ _ _ (by norm_num)]
      rw [h1, h2, h3]
      simp [hcal, hne, hneS]
    rw [hdev]
    refine ⟨rfl, rfl, rfl, ?_⟩
    intro i j hi hj
    dsimp only
    rw [normalizeFrame_avg_at (rawSeq n) n false ((runTicks rawSeq n).bufs) i j hlt hi hj]
    rw [h4 i j hi hj]
    rcases Nat.eq_zero_or_pos n with h0 | hpos
    · subst h0
      simp [rawSum]
    · have hnz : n ≠ 0 := Nat.pos_iff_ne_zero.mp hpos
      rw [if_neg hnz]
      have hb : rawSum rawSeq n (cellIdx i j) + rawSeq n (cellIdx i j) % 256 < 65536 := by
        have hle := rawSum_le rawSeq n (cellIdx i j)
        have hmod : rawSeq n (cellIdx i j) % 256 < 256 := Nat.mod_lt _ (by norm_num)
        simp only [AVERAGE_COMPUTE_FRAME] at hlt
        omega
      rw [Nat.mod_eq_of_lt hb]
      unfold rawSum
      rw [Finset.sum_range_succ]

/-! ### The adjacent-score store never touches the cell's own slot -/

theorem adjStep_apply_ne (score : Buf) (i j : Nat) (b : Buf) (kl : Int × Int)
    (n : Nat) (hn : (n : Int) ≠ adjTarget i j) :
    adjStep score i j b kl n = b n := by
  unfold adjStep
  split
  · split
    · next ht =>
      refine upd_ne _ _ _ _ ?_
      intro he
      apply hn
      rw [he, Int.toNat_of_nonneg ht.1]
    · rfl
  · rfl

theorem adjAccum_apply_ne (score b : Buf) (i j n : Nat)
    (hn : (n : Int) ≠ adjTarget i j) :
    adjAccum score b i j n = b n := by
  suffices h : ∀ (L : List (Int × Int)) (b : Buf), (L.foldl (adjStep score i j) b) n = b n by
    exact h klPairs b
  intro L
  induction L with
  | nil => intro b; rfl
  | cons kl L ih =>
    intro b
    show (L.foldl (adjStep score i j) (adjStep score i j b kl)) n = b n
    rw [ih, adjStep_apply_ne score i j b kl n hn]

theorem deliveredScore_eq (raw : Buf) (s : FoldState) (i j : Nat) :
    deliveredScore raw s i j = s.bufs.lastAdj (cellIdx i j) / 2 := by
  unfold deliveredScore steadyCellFull
  dsimp only
  rw [upd_same]
  rw [adjAccum_apply_ne _ _ _ _ _ (by unfold adjTarget; omega)]
  rw [upd_same]
  rw [Nat.zero_add]

/-! ### The C1 end-to-end scenario reports nothing on the touch frame -/

theorem scenario510_reported : reportedAt c1RawSeq 510 = [] := by
  obtain ⟨h1, h2⟩ := runTicks_pre_steady c1RawSeq 510
    (by norm_num [SIGMA_COMPUTE_FRAME, AVERAGE_COMPUTE_FRAME])
  unfold reportedAt
  rw [pollTick_reported_eq _ _ _ (by norm_num)]
  rw [h2]
  simp [reportedContacts]

/-! ### Claim theorems -/

/-- C1 (counterexample): in the spec's end-to-end scenario — 510 all-zero
calibration frames followed by one frame with cell (10,10) far above
threshold — the extractor reports the empty contact list on the touch frame,
not exactly one contact at (10,10,1,1): the 511th frame is still the
sigma-finalize frame (`frame_index = 510`), during which no contact
extraction runs. -/
theorem c1_counterexample : reportedAt c1RawSeq 510 = [] :=
  scenario510_reported

/-- C1 (amended): in steady state, a triggered cell contained in no
existing dilated bounding box, with `contact_index < MAX_CONTACTS`, makes
the extractor increment `contact_index` and write the new single-cell
record `{x = column, y = row, w = 1, h = 1}` at slot `contact_index + 1`
(the slot after the increment; slot 0 is never filled), leaving all other
slots unchanged; and in the end-to-end scenario of 510 all-zero frames
followed by one touch frame, the extractor reports zero contacts on the
touch frame. -/
theorem c1_new_contact_slot_and_scenario (contacts : Nat → TouchContact)
    (ci i j : Nat) (hci : ci < MAX_CONTACTS)
    (hmatch : findMatch contacts ci i j = none) :
    (contactStep true i j contacts ci).2 = ci + 1 ∧
    (contactStep true i j contacts ci).1 (ci + 1) = ⟨(j : Int), (i : Int), 1, 1⟩ ∧
    (∀ m, m ≠ ci + 1 → (contactStep true i j contacts ci).1 m = contacts m) ∧
    reportedAt c1RawSeq 510 = [] := by
  have hstep : contactStep true i j contacts ci =
      (updC contacts (ci + 1) ⟨(j : Int), (i : Int), 1, 1⟩, ci + 1) := by
    unfold contactStep
    rw [if_pos hci, if_pos rfl, hmatch]
  refine ⟨?_, ?_, ?_, scenario510_reported⟩
  · rw [hstep]
  · rw [hstep]
    simp [updC]
  · intro m hm
    rw [hstep]
    simp [updC, hm]

/-- C1 (witness). -/
theorem c1_new_contact_slot_and_scenario_witness :
    (0 < MAX_CONTACTS ∧ findMatch (fun _ => zeroContact) 0 5 5 = none) ∧
    (contactStep true 5 5 (fun _ => zeroContact) 0).2 = 0 + 1 :=
  ⟨⟨by decide, by decide⟩,
   (c1_new_contact_slot_and_scenario (fun _ => zeroContact) 0 5 5
     (by decide) (by decide)).1⟩

/-- C2 (counterexample): with `contact_index = 9` (nine contacts already
opened) and a triggered cell (row 1, col 1) outside every existing dilated
box, the capacity test `9 < MAX_CONTACTS` passes, `contact_index` is
incremented to 10, and the new record is written at slot 10 = MAX_CONTACTS —
one past the declared `touch_contacts[MAX_CONTACTS]` array and outside the
slots 0..MAX_CONTACTS-1, while every slot 0..9 is left unchanged. This
refutes the claim that every contact record written lies at an array slot in
0..MAX_CONTACTS-1 and that no slot outside the declared array is ever
written. -/
theorem c2_counterexample :
    (contactStep true 1 1 c2Contacts 9).2 = MAX_CONTACTS ∧
    (contactStep true 1 1 c2Contacts 9).1 MAX_CONTACTS = ⟨1, 1, 1, 1⟩ ∧
    (∀ m, m < MAX_CONTACTS → (contactStep true 1 1 c2Contacts 9).1 m = c2Contacts m) := by
  decide

/-- C2 (amended): starting from any contact count `ci ≤ MAX_CONTACTS`, the
per-cell contact bookkeeping never takes the counter above MAX_CONTACTS;
once the counter has reached MAX_CONTACTS, a further triggered cell leaves
the contact array and the counter completely unchanged (silently dropped);
but a new contact opened at `ci + 1 = MAX_CONTACTS` (the tenth of a frame)
is written at slot MAX_CONTACTS — one past the declared
`touch_contacts[MAX_CONTACTS]` array, an out-of-bounds store in the C
code. -/
theorem c2_cap_and_overflow (cellTriggered : Bool) (i j : Nat)
    (contacts : Nat → TouchContact) (ci : Nat) (hci : ci ≤ MAX_CONTACTS) :
    (contactStep cellTriggered i j contacts ci).2 ≤ MAX_CONTACTS ∧
    (MAX_CONTACTS ≤ ci → contactStep cellTriggered i j contacts ci = (contacts, ci)) ∧
    (ci + 1 = MAX_CONTACTS → cellTriggered = true →
      findMatch contacts ci i j = none →
      (contactStep cellTriggered i j contacts ci).2 = MAX_CONTACTS ∧
      (contactStep cellTriggered i j contacts ci).1 MAX_CONTACTS =
        ⟨(j : Int), (i : Int), 1, 1⟩) := by
  refine ⟨?_, ?_, ?_⟩
  · unfold contactStep
    by_cases hlt : ci < MAX_CONTACTS
    · rw [if_pos hlt]
      by_cases htr : cellTriggered = true
      · rw [htr, if_pos rfl]
        cases hfm : findMatch contacts ci i j with
        | some m => simp; omega
        | none => simp; omega
      · rw [if_neg htr]
        simpa using hci
    · rw [if_neg hlt]
      simpa using hci
  · intro hge
    have hnlt : ¬ ci < MAX_CONTACTS := by omega
    unfold contactStep
    rw [if_neg hnlt]
  · intro hc9 htr hfm
    have hlt : ci < MAX_CONTACTS := by omega
    have hstep : contactStep cellTriggered i j contacts ci =
        (updC contacts (ci + 1) ⟨(j : Int), (i : Int), 1, 1⟩, ci + 1) := by
      unfold contactStep
      rw [if_pos hlt, htr, if_pos rfl, hfm]
    rw [hstep]
    constructor
    · simpa using hc9
    · rw [← hc9]
      simp [updC]

/-- C2 (witness). -/
theorem c2_cap_and_overflow_witness :
    ((9 : Nat) ≤ MAX_CONTACTS ∧ 9 + 1 = MAX_CONTACTS ∧
      findMatch c2Contacts 9 1 1 = none) ∧
    ((contactStep true 1 1 c2Contacts 9).2 = MAX_CONTACTS ∧
     (contactStep true 1 1 c2Contacts 9).1 MAX_CONTACTS =
       ⟨((1 : Nat) : Int), ((1 : Nat) : Int), 1, 1⟩) :=
  ⟨⟨by decide, by decide, by decide⟩,
   (c2_cap_and_overflow true 1 1 c2Contacts 9 (by decide)).2.2
     (by decide) rfl (by decide)⟩

/-- C3 (counterexample): a read-completion with the cancellation status
-ENOENT records `dev->errors = -ENOENT` (only the log line is suppressed),
and likewise the write path with -ECONNRESET — contradicting the claim that
cancellation statuses are never recorded as the pending error. -/
theorem c3_counterexample :
    (skelReadBulkCallback (-2) 0 ⟨0, 0, true⟩).state.errors = -2 ∧
    (skelReadBulkCallback (-2) 0 ⟨0, 0, true⟩).logged = false ∧
    (skelWriteBulkCallback (-104) 0).1 = -104 := by
  decide

/-- C3 (amended): for every nonzero transfer status, both completion
callbacks record the status — cancellation statuses included — as the
pending error; the cancellation statuses (-ENOENT, -ECONNRESET, -ESHUTDOWN)
only suppress the error log line. -/
theorem c3_callbacks_record_all_errors (status : Int) (al : Nat)
    (s : CallbackState) (e : Int) (h : status ≠ 0) :
    (skelReadBulkCallback status al s).state.errors = status ∧
    ((skelReadBulkCallback status al s).logged = false ↔ isCancelStatus status = true) ∧
    (skelWriteBulkCallback status e).1 = status ∧
    ((skelWriteBulkCallback status e).2 = false ↔ isCancelStatus status = true) := by
  simp [skelReadBulkCallback, skelWriteBulkCallback, h]

/-- C3 (witness). -/
theorem c3_callbacks_record_all_errors_witness :
    ((-2 : Int) ≠ 0) ∧ (skelReadBulkCallback (-2) 1 ⟨0, 0, true⟩).state.errors = -2 :=
  ⟨by decide, (c3_callbacks_record_all_errors (-2) 1 ⟨0, 0, true⟩ 0 (by decide)).1⟩

/-- C4 (counterexample): concrete steady state (zero baseline, sigma 1,
zero history) with a raw spike of 200 at cell (10,10). The claim's formula
— (current frame's 3x3 neighborhood sum + previous frame's adjacent score)
/ 2 — gives 100 at cell (10,10), but the score actually delivered to the
threshold test is 0: the cell's own adjacent slot is zeroed at the start of
its iteration, and the current neighborhood sum is stored at `index - 65`
(cell (9,9)) after that cell was already tested. -/
theorem c4_counterexample :
    deliveredScore c4Raw c4State 10 10 = 0 ∧
    specSmoothedScore c4Raw c4State 10 10 = 100 ∧
    deliveredScore c4Raw c4State 10 10 ≠ specSmoothedScore c4Raw c4State 10 10 :=
  ⟨by decide, by decide, by decide⟩

/-- C4 (amended): in steady state the score delivered to the threshold test
at every cell equals (previous stored adjacent score at that cell) / 2 —
the current frame's neighborhood sum never contributes, because it is
accumulated into the slot of cell (i-1, j-1) after that cell's test — and
the previous-frame buffer is overwritten with the adjacent buffer after
every cell iteration (the per-cell `memcpy`), not once per frame. -/
theorem c4_delivered_is_half_previous (raw : Buf) (s : FoldState) (i j : Nat) :
    deliveredScore raw s i j = s.bufs.lastAdj (cellIdx i j) / 2 ∧
    ∀ n, (steadyCellFull raw s i j).1.bufs.lastAdj n =
      (steadyCellFull raw s i j).1.bufs.adj n :=
  ⟨deliveredScore_eq raw s i j, fun _ => rfl⟩

/-- C5 (counterexample): a poll tick processing `frame_index = 7001`
(`CALIBRATE_EVERY + 1`) leaves `frame_index = 1` — not 0 — for the next
processed frame: the reset to 0 is followed by the unconditional end-of-tick
increment. The flags are reset as claimed. -/
theorem c5_counterexample :
    (pollTick (fun _ => 0) 0
      ⟨initBuffers, CALIBRATE_EVERY + 1, true, true⟩).dev.frameIndex = 1 ∧
    (pollTick (fun _ => 0) 0
      ⟨initBuffers, CALIBRATE_EVERY + 1, true, true⟩).dev.frameIndex ≠ 0 ∧
    (pollTick (fun _ => 0) 0
      ⟨initBuffers, CALIBRATE_EVERY + 1, true, true⟩).dev.averageComputed = false ∧
    (pollTick (fun _ => 0) 0
      ⟨initBuffers, CALIBRATE_EVERY + 1, true, true⟩).dev.sigmaNormalized = false := by
  have h1 : (pollTick (fun _ => 0) 0
      ⟨initBuffers, CALIBRATE_EVERY + 1, true, true⟩).dev.frameIndex = 1 := rfl
  exact ⟨h1, by rw [h1]; decide, rfl, rfl⟩

/-- C5 (amended): on every successfully fetched tick whose frame index
exceeds CALIBRATE_EVERY, the tick ends with `average_computed` and
`sigma_normalized` both false and `frame_index = 1` (the reset to 0 is
followed by the unconditional increment), so the next frame is processed
with `frame_index = 1`, skipping the `frame_index == 0` assignment step of
the averaging phase. -/
theorem c5_recalibration_next_frame (raw : Buf) (r : Int) (d : DevState)
    (hr : ¬ r < 0) (hf : CALIBRATE_EVERY < d.frameIndex) :
    (pollTick raw r d).dev.frameIndex = 1 ∧
    (pollTick raw r d).dev.averageComputed = false ∧
    (pollTick raw r d).dev.sigmaNormalized = false := by
  rw [pollTick_dev_eq raw r d hr]
  refine ⟨?_, ?_, ?_⟩ <;> simp [hf]

/-- C5 (witness). -/
theorem c5_recalibration_next_frame_witness :
    (¬ (0 : Int) < 0) ∧
    (CALIBRATE_EVERY < (⟨initBuffers, 7001, true, true⟩ : DevState).frameIndex) ∧
    (pollTick (fun _ => 0) 0 ⟨initBuffers, 7001, true, true⟩).dev.frameIndex = 1 :=
  ⟨by decide, by decide,
   (c5_recalibration_next_frame (fun _ => 0) 0 ⟨initBuffers, 7001, true, true⟩
     (by decide) (by decide)).1⟩

/-- C6: after the sigma-finalize frame
(`frame_index = SIGMA_COMPUTE_FRAME + AVERAGE_COMPUTE_FRAME`), every cell's
sigma is at least 1 — whatever the accumulated deviations were, including
all-zero — and steady-state frames never modify the sigma buffer, so the
score division `|sample - baseline| / sigma` never divides by zero on any
subsequent frame. -/
theorem c6_sigma_floor (raw : Buf) (bufs : Buffers) (i j : Nat)
    (hi : i < 64) (hj : j < 64) :
    1 ≤ (normalizeFrame raw (SIGMA_COMPUTE_FRAME + AVERAGE_COMPUTE_FRAME)
      false true bufs).bufs.sigma (cellIdx i j) ∧
    ∀ (raw2 : Buf) (fi : Nat) (b2 : Buffers) (n : Nat),
      (normalizeFrame raw2 fi true true b2).bufs.sigma n = b2.sigma n := by
  refine ⟨?_, fun raw2 fi b2 n => normalizeFrame_steady_sigma raw2 fi b2 n⟩
  rw [normalizeFrame_sigmaFin_at raw true bufs i j hi hj]
  split <;> omega

/-- C6 (witness). -/
theorem c6_sigma_floor_witness :
    ((0 : Nat) < 64) ∧
    1 ≤ (normalizeFrame (fun _ => 0) (SIGMA_COMPUTE_FRAME + AVERAGE_COMPUTE_FRAME)
      false true initBuffers).bufs.sigma (cellIdx 0 0) :=
  ⟨by decide, (c6_sigma_floor (fun _ => 0) initBuffers 0 0 (by decide) (by decide)).1⟩

/-- C7: from power-on, for every frame count `f + 1` with
`f < AVERAGE_COMPUTE_FRAME` and every cell, the average buffer holds the
exact (unwrapped) sum of the first `f + 1` byte samples at that cell — the
16-bit accumulator cannot overflow for byte-valued samples — and the tick
processing `frame_index = AVERAGE_COMPUTE_FRAME` divides the accumulated
sum by AVERAGE_COMPUTE_FRAME, giving the cell's baseline. -/
theorem c7_average_exact_sum (rawSeq : Nat → Buf) (f i j : Nat)
    (hf : f < AVERAGE_COMPUTE_FRAME) (hi : i < 64) (hj : j < 64) :
    (runTicks rawSeq (f + 1)).bufs.average (cellIdx i j) =
      rawSum rawSeq (f + 1) (cellIdx i j) ∧
    (runTicks rawSeq (AVERAGE_COMPUTE_FRAME + 1)).bufs.average (cellIdx i j) =
      rawSum rawSeq AVERAGE_COMPUTE_FRAME (cellIdx i j) / AVERAGE_COMPUTE_FRAME := by
  constructor
  · exact (runTicks_avg_inv rawSeq (f + 1) hf).2.2.2 i j hi hj
  · obtain ⟨h1, h2, h3, h4⟩ := runTicks_avg_inv rawSeq AVERAGE_COMPUTE_FRAME (le_refl _)
    have hdev : runTicks rawSeq (AVERAGE_COMPUTE_FRAME + 1) =
        ⟨(normalizeFrame (rawSeq AVERAGE_COMPUTE_FRAME) AVERAGE_COMPUTE_FRAME false false
            (runTicks rawSeq AVERAGE_COMPUTE_FRAME).bufs).bufs,
          AVERAGE_COMPUTE_FRAME + 1, false, true⟩ := by
      show (pollTick (rawSeq AVERAGE_COMPUTE_FRAME) 0
        (runTicks rawSeq AVERAGE_COMPUTE_FRAME)).dev = _
      rw [pollTick_dev_eq _ _ _ (by norm_num)]
      rw [h1, h2, h3]
      norm_num [CALIBRATE_EVERY, SIGMA_COMPUTE_FRAME, AVERAGE_COMPUTE_FRAME]
    rw [hdev]
    dsimp only
    rw [normalizeFrame_avgFin_at (rawSeq AVERAGE_COMPUTE_FRAME) false
      ((runTicks rawSeq AVERAGE_COMPUTE_FRAME).bufs) i j hi hj]
    rw [h4 i j hi hj]

/-- C7 (witness). -/
theorem c7_average_exact_sum_witness :
    ((0 : Nat) < AVERAGE_COMPUTE_FRAME) ∧
    (runTicks (fun _ _ => 0) (0 + 1)).bufs.average (cellIdx 0 0) =
      rawSum (fun _ _ => 0) (0 + 1) (cellIdx 0 0) :=
  ⟨by decide,
   (c7_average_exact_sum (fun _ _ => 0) 0 0 0 (by decide) (by decide) (by decide)).1⟩

/-- C8: a pending negative error is surfaced exactly once: the error-check
fragments of `skel_read` and `skel_write` return -EPIPE for a recorded
-EPIPE and -EIO for any other recorded error, clear the stored code to 0, so
the next access reports nothing; `skel_flush` likewise maps, returns and
clears the error. -/
theorem c8_error_reported_once (e : Int) (he : e < 0) :
    readErrorStep e = (some (if e = -32 then -32 else -5), 0) ∧
    (readErrorStep (readErrorStep e).2).1 = none ∧
    writeErrorStep e = (some (if e = -32 then -32 else -5), 0) ∧
    (writeErrorStep (writeErrorStep e).2).1 = none ∧
    flushErrorStep e = (if e = -32 then -32 else -5, 0) ∧
    (flushErrorStep (flushErrorStep e).2).1 = 0 := by
  have hne : e ≠ 0 := by omega
  simp [readErrorStep, writeErrorStep, flushErrorStep, he, hne]

/-- C8 (witness). -/
theorem c8_error_reported_once_witness :
    ((-71 : Int) < 0) ∧
    readErrorStep (-71) = (some (if (-71 : Int) = -32 then -32 else -5), 0) :=
  ⟨by decide, (c8_error_reported_once (-71) (by decide)).1⟩

/-- C9 (code bug, evaluated at the failing input): at steady-state cell
(row 63, col 1), the linear index is (1 + 63*64 + 64) % 4096 = 1, so the
adjacent-score store destination `index - 65` is -64 — outside the
4160-entry `score_frame_adjacent` buffer — while the loop guard
(`l + j > 0 && k + i > 0`, e.g. at k = l = 0) does let the store execute. -/
theorem c9_adjacent_store_out_of_bounds :
    adjTarget 63 1 = -64 ∧
    (∃ kl ∈ klPairs, kl.2 + ((1 : Nat) : Int) > 0 ∧ kl.1 + ((63 : Nat) : Int) > 0) := by
  decide

/-- C10: a poll tick whose synchronous fetch returns a negative status
returns early: the device state (frame index, both calibration flags, all
buffers and the contact array) is unchanged, no frame-complete marker is
emitted, and no contacts are reported. -/
theorem c10_failed_fetch_unchanged (raw : Buf) (r : Int) (d : DevState)
    (hr : r < 0) :
    pollTick raw r d = ⟨d, false, []⟩ := by
  unfold pollTick
  rw [if_pos hr]

/-- C10 (witness). -/
theorem c10_failed_fetch_unchanged_witness :
    ((-1 : Int) < 0) ∧ pollTick (fun _ => 0) (-1) initDev = ⟨initDev, false, []⟩ :=
  ⟨by decide, c10_failed_fetch_unchanged (fun _ => 0) (-1) initDev (by decide)⟩

end GreenTouch
